import Mathlib

/-!
Verification of the CraneFlyOS interaction core (src/main.py) against its
natural-language specification.  Python strings are modelled as lists of
characters, machine time as natural-number milliseconds, and the blocking
spin-wait loops of the gesture decoder as fuel-indexed recursive functions
over a pair of boolean button traces.
-/

set_option maxRecDepth 40000

namespace CraneFly

/-- A raw two-button input trace: for each millisecond tick, whether each
button line reads pressed.  In main.py the lines are pull-ups, so pressed
means that `not self.btnN.value()` is truthy. -/
structure Trace where
  b1 : Nat → Bool
  b2 : Nat → Bool

/-- The gesture vocabulary returned by ButtonHandler.get_input, one
constructor per string literal of main.py. -/
inductive Gesture where
  | both_long
  | both_short
  | btn1_hold_btn2_tap
  | btn1_short
  | btn2_hold_btn1_tap
  | btn2_short
  deriving DecidableEq

/-- ButtonHandler.long_press_ms. -/
def long_press_ms : Nat := 800

/-- ButtonHandler.debounce_ms. -/
def debounce_ms : Nat := 50

/-- Embedding of the spin loop `while not btn.value(): time.sleep_ms(10)`:
returns the first sample time at or after `t` at which the line reads
released, or `none` when the fuel runs out. -/
def waitRelease (line : Nat → Bool) : Nat → Nat → Option Nat
  | 0, _ => none
  | fuel + 1, t => if line t then waitRelease line fuel (t + 10) else some t

/-- Embedding of the inner loop of the both-pressed branch of get_input,
`while not self.btn1.value() or not self.btn2.value(): time.sleep_ms(10)`. -/
def waitBothRelease (tr : Trace) : Nat → Nat → Option Nat
  | 0, _ => none
  | fuel + 1, t =>
    if tr.b1 t || tr.b2 t then waitBothRelease tr fuel (t + 10) else some t

/-- Embedding of the both-pressed branch of ButtonHandler.get_input: spin
while either line remains pressed; once the elapsed time since `start`
exceeds long_press_ms, wait for full release and produce both_long;
when both lines sample released the loop exits and produces both_short. -/
def bothLoop (tr : Trace) : Nat → Nat → Nat → Option (Gesture × Nat)
  | 0, _, _ => none
  | fuel + 1, t, start =>
    if tr.b1 t || tr.b2 t then
      if long_press_ms < t - start then
        (waitBothRelease tr fuel t).map fun te => (Gesture.both_long, te)
      else bothLoop tr fuel (t + 10) start
    else some (Gesture.both_short, t)

/-- Embedding of the btn1-pressed branch of ButtonHandler.get_input: while
btn1 samples pressed, a press of btn2 starts the hold-plus-tap combo
(debounce btn2, wait for btn2 release, wait for btn1 release); crossing the
hold threshold breaks out; either way the plain-tap fall-through waits for
btn1 release and produces btn1_short. -/
def btn1Loop (tr : Trace) : Nat → Nat → Nat → Option (Gesture × Nat)
  | 0, _, _ => none
  | fuel + 1, t, start =>
    if tr.b1 t then
      if tr.b2 t then
        (waitRelease tr.b2 fuel (t + debounce_ms)).bind fun t1 =>
          (waitRelease tr.b1 fuel t1).map fun t2 => (Gesture.btn1_hold_btn2_tap, t2)
      else if long_press_ms < t - start then
        (waitRelease tr.b1 fuel t).map fun te => (Gesture.btn1_short, te)
      else btn1Loop tr fuel (t + 10) start
    else
      (waitRelease tr.b1 fuel t).map fun te => (Gesture.btn1_short, te)

/-- Embedding of the btn2-pressed branch of ButtonHandler.get_input,
symmetric to the btn1 branch. -/
def btn2Loop (tr : Trace) : Nat → Nat → Nat → Option (Gesture × Nat)
  | 0, _, _ => none
  | fuel + 1, t, start =>
    if tr.b2 t then
      if tr.b1 t then
        (waitRelease tr.b1 fuel (t + debounce_ms)).bind fun t1 =>
          (waitRelease tr.b2 fuel t1).map fun t2 => (Gesture.btn2_hold_btn1_tap, t2)
      else if long_press_ms < t - start then
        (waitRelease tr.b2 fuel t).map fun te => (Gesture.btn2_short, te)
      else btn2Loop tr fuel (t + 10) start
    else
      (waitRelease tr.b2 fuel t).map fun te => (Gesture.btn2_short, te)

/-- Embedding of ButtonHandler.get_input over a button trace, started at
sample time `t`.  The result is `none` when the fuel runs out, otherwise
`some (g, te)` where `g` is the returned value (`none` for the Python None)
and `te` the time of return.  Both lines are sampled at `t`; if neither is
pressed the call returns immediately; otherwise the call sleeps
debounce_ms and dispatches on the two captured pre-debounce samples. -/
def get_input (tr : Trace) (fuel t : Nat) : Option (Option Gesture × Nat) :=
  let btn1_pressed := tr.b1 t
  let btn2_pressed := tr.b2 t
  if !btn1_pressed && !btn2_pressed then some (none, t)
  else
    if btn1_pressed && btn2_pressed then
      (bothLoop tr fuel (t + debounce_ms) (t + debounce_ms)).map fun r => (some r.1, r.2)
    else if btn1_pressed then
      (btn1Loop tr fuel (t + debounce_ms) (t + debounce_ms)).map fun r => (some r.1, r.2)
    else
      (btn2Loop tr fuel (t + debounce_ms) (t + debounce_ms)).map fun r => (some r.1, r.2)

/-- Python strings are modelled as lists of characters. -/
abbrev Str := List Char

/-- Python str.endswith restricted to the use in execute_file. -/
def pyEndsWith (s suf : Str) : Bool := suf.isSuffixOf s

/-- The literal ".py" of execute_file. -/
def dotPy : Str := ['.', 'p', 'y']

/-- The literal "Error:". -/
def errHeader : Str := ['E', 'r', 'r', 'o', 'r', ':']

/-- The literal "Not a .py file". -/
def notPyLine : Str := ['N', 'o', 't', ' ', 'a', ' ', '.', 'p', 'y', ' ', 'f', 'i', 'l', 'e']

/-- The literal "Process exited". -/
def exitedLine1 : Str := ['P', 'r', 'o', 'c', 'e', 's', 's', ' ', 'e', 'x', 'i', 't', 'e', 'd']

/-- The literal "normally". -/
def exitedLine2 : Str := ['n', 'o', 'r', 'm', 'a', 'l', 'l', 'y']

/-- The literal "Process". -/
def interruptLine1 : Str := ['P', 'r', 'o', 'c', 'e', 's', 's']

/-- The literal "interrupted". -/
def interruptLine2 : Str := ['i', 'n', 't', 'e', 'r', 'r', 'u', 'p', 't', 'e', 'd']

/-- The literal "Exec Error:". -/
def execErrLine : Str := ['E', 'x', 'e', 'c', ' ', 'E', 'r', 'r', 'o', 'r', ':']

/-- The literal "main.py", the launcher file filtered out of listings. -/
def mainPyName : Str := ['m', 'a', 'i', 'n', '.', 'p', 'y']

/-- The literal "/", the filesystem root. -/
def rootPath : Str := ['/']

/-- The literal "..", the name of the parent entry. -/
def dotDotName : Str := ['.', '.']

/-- The literal "Error: " prepended to the synthetic error item name. -/
def errorLabel : Str := ['E', 'r', 'r', 'o', 'r', ':', ' ']

/-- Display.__init__: max_lines, six visible rows. -/
def Display.max_lines : Nat := 6

/-- Display.__init__: max_chars, sixteen characters per rendered line. -/
def Display.max_chars : Nat := 16

/-- Outcome of the dynamic exec call inside SubprocessManager.execute_file:
normal completion, a KeyboardInterrupt, or another exception whose
str(e) is msg. -/
inductive ExecOutcome where
  | ok
  | interrupted
  | error (msg : Str)
  deriving DecidableEq

/-- Observable state after SubprocessManager.execute_file returns: the
result lines, the ProcessControl.should_exit flag and the running flag. -/
structure ExecResult where
  lines : List Str
  should_exit : Bool
  running : Bool
  deriving DecidableEq

/-- SubprocessManager.execute_file.  The flag arguments are the states of
ProcessControl.should_exit and self.running on entry; the outcome argument
stands for what the dynamic exec of the loaded code did.  A filepath whose
extension is not .py is rejected before any cleanup runs; all other
branches clear both flags on the way out. -/
def SubprocessManager.execute_file (filepath : Str) (outcome : ExecOutcome)
    (should_exit0 running0 : Bool) : ExecResult :=
  if pyEndsWith filepath dotPy = false then
    { lines := [errHeader, notPyLine], should_exit := should_exit0, running := running0 }
  else
    match outcome with
    | ExecOutcome.ok =>
        { lines := [exitedLine1, exitedLine2], should_exit := false, running := false }
    | ExecOutcome.interrupted =>
        { lines := [interruptLine1, interruptLine2], should_exit := false, running := false }
    | ExecOutcome.error msg =>
        { lines := [execErrLine, msg.take 40,
                    if 40 < msg.length then (msg.drop 40).take 40 else []],
          should_exit := false, running := false }

/-- Kinds of file browser items. -/
inductive ItemType where
  | dir
  | file
  | parent
  | error
  deriving DecidableEq

/-- One entry of FileBrowser.items. -/
structure Item where
  name : Str
  type : ItemType
  path : Str
  deriving DecidableEq

/-- FileBrowser state. -/
structure FileBrowser where
  current_path : Str
  items : List Item
  selected_index : Nat
  scroll_offset : Nat
  deriving DecidableEq

/-- The os.listdir collaborator: ok entries when the path lists, error msg
when it raises (the message being str(e)). -/
abbrev Listing := Str → Except Str (List Str)

/-- Lexicographic code-point comparison, modelling how the Python sorted
builtin orders strings. -/
def strLt : Str → Str → Bool
  | [], [] => false
  | [], _ :: _ => true
  | _ :: _, [] => false
  | a :: s, b :: u =>
    if a.toNat < b.toNat then true
    else if b.toNat < a.toNat then false
    else strLt s u

/-- Insert a name into an already sorted list of names. -/
def insertSorted (x : Str) : List Str → List Str
  | [] => [x]
  | y :: ys => if strLt y x then y :: insertSorted x ys else x :: y :: ys

/-- Model of sorted(entries) in refresh_items. -/
def pySorted (l : List Str) : List Str := l.foldr insertSorted []

/-- Python str.rstrip with a single strip character: removes the maximal
trailing run of that character. -/
def pyRstrip (c : Char) : Str → Str
  | [] => []
  | a :: rest =>
    let r := pyRstrip c rest
    if r = [] ∧ a = c then [] else a :: r

/-- Python str.split with a single-character separator: cuts at every
occurrence and keeps empty pieces, so the result is never empty. -/
def pySplit (c : Char) : Str → List Str
  | [] => [[]]
  | a :: rest =>
    if a = c then [] :: pySplit c rest
    else
      match pySplit c rest with
      | [] => [[a]]
      | h :: u => (a :: h) :: u

/-- Python sep.join. -/
def pyJoin (c : Char) : List Str → Str
  | [] => []
  | [s] => s
  | s :: rest => s ++ c :: pyJoin c rest

/-- FileBrowser._get_parent_path. -/
def get_parent_path (p : Str) : Str :=
  if p = rootPath then rootPath
  else
    let parts := pySplit '/' (pyRstrip '/' p)
    if parts.length ≤ 1 then rootPath
    else
      let j := pyJoin '/' parts.dropLast
      if j = [] then rootPath else j

/-- The full_path built for each entry inside refresh_items. -/
def fullPath (current_path entry : Str) : Str :=
  current_path ++ (if current_path = rootPath then [] else ['/']) ++ entry

/-- The entry loop of refresh_items: every sorted entry except main.py
becomes a dir item when fs accepts its full path, a file item when fs
raises on it. -/
def scanEntries (fs : Listing) (current_path : Str) (entries : List Str) : List Item :=
  (pySorted entries).filterMap fun entry =>
    if entry = mainPyName then none
    else
      match fs (fullPath current_path entry) with
      | Except.ok _ =>
          some { name := entry, type := ItemType.dir, path := fullPath current_path entry }
      | Except.error _ =>
          some { name := entry, type := ItemType.file, path := fullPath current_path entry }

/-- FileBrowser.refresh_items with the os.listdir collaborator passed in as
fs.  A listing failure (the except branch) produces the single synthetic
error item.  Otherwise the entries are scanned and the parent item is
inserted in front when current_path is not the root.  Selection and scroll
are reset to zero. -/
def refresh_items (fs : Listing) (b : FileBrowser) : FileBrowser :=
  let items :=
    match fs b.current_path with
    | Except.ok entries =>
        if b.current_path ≠ rootPath then
          { name := dotDotName, type := ItemType.parent,
            path := get_parent_path b.current_path } :: scanEntries fs b.current_path entries
        else scanEntries fs b.current_path entries
    | Except.error e => [{ name := errorLabel ++ e, type := ItemType.error, path := [] }]
  { b with items := items, selected_index := 0, scroll_offset := 0 }

/-- FileBrowser.next_item: advance the selection with wraparound and pull
the scroll window along so the selection stays visible. -/
def FileBrowser.next_item (b : FileBrowser) : FileBrowser :=
  if b.items = [] then b
  else
    let selected_index := (b.selected_index + 1) % b.items.length
    let scroll_offset :=
      if selected_index < b.scroll_offset then selected_index
      else if b.scroll_offset + Display.max_lines ≤ selected_index then
        selected_index - Display.max_lines + 1
      else b.scroll_offset
    { b with selected_index := selected_index, scroll_offset := scroll_offset }

/-- FileBrowser.scroll_down: move the viewport down one line, clamped. -/
def FileBrowser.scroll_down (b : FileBrowser) : FileBrowser :=
  { b with scroll_offset := min (b.scroll_offset + 1) (b.items.length - Display.max_lines) }

/-- FileBrowser.scroll_up: move the viewport up one line, clamped at 0. -/
def FileBrowser.scroll_up (b : FileBrowser) : FileBrowser :=
  { b with scroll_offset := b.scroll_offset - 1 }

/-- FileBrowser.get_selected_item. -/
def FileBrowser.get_selected_item (b : FileBrowser) : Option Item :=
  if 0 < b.items.length ∧ b.selected_index < b.items.length then
    b.items[b.selected_index]?
  else none

/-- FileBrowser.enter_selected: navigate into a dir or parent entry (path
change plus refresh), or hand back the path of a file entry untouched. -/
def FileBrowser.enter_selected (fs : Listing) (b : FileBrowser) : Option Str × FileBrowser :=
  match b.get_selected_item with
  | none => (none, b)
  | some item =>
    if item.type = ItemType.dir ∨ item.type = ItemType.parent then
      (none, refresh_items fs { b with current_path := item.path })
    else if item.type = ItemType.file then (some item.path, b)
    else (none, b)

/-- The literal "cfetch". -/
def cfetchName : Str := ['c', 'f', 'e', 't', 'c', 'h']

/-- The literal "ctop". -/
def ctopName : Str := ['c', 't', 'o', 'p']

/-- The literal "cbin". -/
def cbinName : Str := ['c', 'b', 'i', 'n']

/-- The literal "reboot". -/
def rebootName : Str := ['r', 'e', 'b', 'o', 'o', 't']

/-- MenuSystem.menu_items. -/
def menu_items : List Str := [cfetchName, ctopName, cbinName, rebootName]

/-- MenuSystem state: the menu item list is fixed, so only the selection
index varies. -/
structure MenuSystem where
  selected_index : Nat
  deriving DecidableEq

/-- MenuSystem.next_item. -/
def MenuSystem.next_item (m : MenuSystem) : MenuSystem :=
  { m with selected_index := (m.selected_index + 1) % menu_items.length }

/-- The top-level UI modes of CraneFlyOS. -/
inductive Mode where
  | menu
  | output
  | cbin
  deriving DecidableEq

/-- The CraneFlyOS state touched by the cbin input handler, together with
the global ProcessControl flag and the subprocess running flag. -/
structure OS where
  mode : Mode
  file_browser : FileBrowser
  output_lines : List Str
  scroll_offset : Nat
  should_exit : Bool
  running : Bool
  deriving DecidableEq

/-- CraneFlyOS.execute_file: run the subprocess manager on the chosen file,
store its result lines and switch to output mode. -/
def CraneFlyOS.execute_file (outcome : ExecOutcome) (filepath : Str) (os : OS) : OS :=
  let r := SubprocessManager.execute_file filepath outcome os.should_exit os.running
  { os with output_lines := r.lines, scroll_offset := 0, mode := Mode.output,
            should_exit := r.should_exit, running := r.running }

/-- CraneFlyOS.handle_cbin_input.  The machine.reset() of the both_long
branch is modelled as none (no observable successor state); every other
branch returns the successor state.  fs is the directory-listing
collaborator and outcome stands for the result of a possible dynamic
exec of a selected file. -/
def CraneFlyOS.handle_cbin_input (fs : Listing) (outcome : ExecOutcome)
    (action : Option Gesture) (os : OS) : Option OS :=
  match action with
  | some Gesture.btn1_short => some { os with file_browser := os.file_browser.next_item }
  | some Gesture.btn2_short =>
      let r := os.file_browser.enter_selected fs
      match r.1 with
      | some path => some (CraneFlyOS.execute_file outcome path { os with file_browser := r.2 })
      | none => some { os with file_browser := r.2 }
  | some Gesture.btn1_hold_btn2_tap => some { os with file_browser := os.file_browser.scroll_down }
  | some Gesture.btn2_hold_btn1_tap => some { os with file_browser := os.file_browser.scroll_up }
  | some Gesture.both_short => some { os with mode := Mode.menu }
  | some Gesture.both_long => none
  | none => some os

/-- Paths of the shape /seg1/.../segN quantified over by the parent-path
claim; mkPath of the empty list is the root itself. -/
def mkPath (segs : List Str) : Str := '/' :: pyJoin '/' segs

/-- The literal "tools". -/
def toolsName : Str := ['t', 'o', 'o', 'l', 's']

/-- The literal "/tools". -/
def toolsPath : Str := ['/', 't', 'o', 'o', 'l', 's']

/-- The literal "a.py". -/
def aPyName : Str := ['a', '.', 'p', 'y']

/-- The literal "/a.py". -/
def aPyPath : Str := ['/', 'a', '.', 'p', 'y']

/-- The literal "prog.txt", a rejected filepath. -/
def progTxtName : Str := ['p', 'r', 'o', 'g', '.', 't', 'x', 't']

/-- A twenty-character exception message. -/
def cexMsg7 : Str :=
  ['a', 'b', 'c', 'd', 'e', 'f', 'g', 'h', 'i', 'j', 'k', 'l', 'm', 'n', 'o', 'p', 'q', 'r', 's', 't']

/-- Counterexample trace for the both-hold claim: line 1 pressed up to
2000 ms, line 2 released just after 100 ms. -/
def cexTrace1 : Trace := ⟨fun t => decide (t ≤ 2000), fun t => decide (t ≤ 100)⟩

/-- Witness trace: both lines pressed up to 100 ms. -/
def witTrace1 : Trace := ⟨fun t => decide (t ≤ 100), fun t => decide (t ≤ 100)⟩

/-- Counterexample trace for the debounce claim: line 1 pressed only before
10 ms, line 2 never pressed. -/
def cexTrace3 : Trace := ⟨fun t => decide (t < 10), fun _ => false⟩

/-- Counterexample trace for the full-release claim: line 1 pressed only
before 10 ms, line 2 pressed from 50 ms to just before 200 ms. -/
def cexTrace4 : Trace := ⟨fun t => decide (t < 10), fun t => decide (50 ≤ t ∧ t < 200)⟩

/-- Listing collaborator that fails on /tools and lists everything else as
empty. -/
def cexFs6 : Listing := fun p =>
  if p = toolsPath then Except.error ['E', 'N', 'O', 'E', 'N', 'T'] else Except.ok []

/-- Listing collaborator for witnesses: the root holds tools and a.py,
/tools lists empty, everything else raises. -/
def witFs : Listing := fun p =>
  if p = rootPath then Except.ok [toolsName, aPyName]
  else if p = toolsPath then Except.ok []
  else Except.error []

/-- A browser sitting at /tools with stale fields, about to refresh. -/
def cexBrowser6 : FileBrowser :=
  { current_path := toolsPath, items := [], selected_index := 0, scroll_offset := 0 }

/-- The witness browser: refreshed at the root against witFs, with the
selection moved to the tools entry. -/
def witBrowser9 : FileBrowser :=
  { refresh_items witFs
      { current_path := rootPath, items := [], selected_index := 0, scroll_offset := 0 } with
    selected_index := 1 }

/-- The witness OS state in file browser mode. -/
def witOS9 : OS :=
  { mode := Mode.cbin, file_browser := witBrowser9, output_lines := [], scroll_offset := 0,
    should_exit := false, running := false }

/-- A single file item for frame-condition witnesses. -/
def witItem : Item := { name := aPyName, type := ItemType.file, path := aPyPath }

/-- A three-item browser for the cyclic-advance witness. -/
def witBrowser5 : FileBrowser :=
  { current_path := rootPath, items := [witItem, witItem, witItem],
    selected_index := 1, scroll_offset := 0 }

/-- A browser with a file entry selected. -/
def witBrowser8 : FileBrowser :=
  { current_path := rootPath, items := [witItem], selected_index := 0, scroll_offset := 0 }

end CraneFly

namespace CraneFly

/-- A spin-wait on one line only ever reports a sample time at which that
line reads released. -/
theorem waitRelease_released {line : Nat → Bool} :
    ∀ {fuel t te : Nat}, waitRelease line fuel t = some te → line te = false := by
  intro fuel
  induction fuel with
  | zero => intro t te h; exact absurd h (by simp [waitRelease])
  | succ n ih =>
    intro t te h
    rw [waitRelease] at h
    split at h
    · exact ih h
    · next hl =>
      cases h
      simpa using hl

/-- The inner full-release wait of the both branch only reports a time at
which both lines read released. -/
theorem waitBothRelease_released {tr : Trace} :
    ∀ {fuel t te : Nat}, waitBothRelease tr fuel t = some te →
      tr.b1 te = false ∧ tr.b2 te = false := by
  intro fuel
  induction fuel with
  | zero => intro t te h; exact absurd h (by simp [waitBothRelease])
  | succ n ih =>
    intro t te h
    rw [waitBothRelease] at h
    split at h
    · exact ih h
    · next hl =>
      cases h
      constructor <;> simp_all

/-- The both-pressed branch only produces the two both gestures, and only
at a time at which both lines read released. -/
theorem bothLoop_release {tr : Trace} :
    ∀ {fuel t start te : Nat} {g : Gesture},
      bothLoop tr fuel t start = some (g, te) →
      (g = Gesture.both_long ∨ g = Gesture.both_short) ∧
        tr.b1 te = false ∧ tr.b2 te = false := by
  intro fuel
  induction fuel with
  | zero => intro t start te g h; exact absurd h (by simp [bothLoop])
  | succ n ih =>
    intro t start te g h
    rw [bothLoop] at h
    split at h
    · split at h
      · rcases Option.map_eq_some'.mp h with ⟨ta, hwa, hpair⟩
        injection hpair with hg hte
        subst hg; subst hte
        exact ⟨Or.inl rfl, waitBothRelease_released hwa⟩
      · exact ih h
    · next hl =>
      cases h
      exact ⟨Or.inr rfl, by simp_all, by simp_all⟩

/-- Timing of the both-pressed branch: both_long is produced only when some
line is still pressed at a sample more than the hold threshold past the
timer start, and both_short only when the loop exits at most one sleep
increment past the threshold. -/
theorem bothLoop_timing {tr : Trace} :
    ∀ {fuel t start te : Nat} {g : Gesture},
      t - start ≤ long_press_ms + 10 →
      bothLoop tr fuel t start = some (g, te) →
      (g = Gesture.both_long →
        ∃ tc, long_press_ms < tc - start ∧ (tr.b1 tc = true ∨ tr.b2 tc = true)) ∧
      (g = Gesture.both_short → te - start ≤ long_press_ms + 10) := by
  intro fuel
  induction fuel with
  | zero => intro t start te g _ h; exact absurd h (by simp [bothLoop])
  | succ n ih =>
    intro t start te g hts h
    rw [bothLoop] at h
    split at h
    · next hpress =>
      split at h
      · next hthr =>
        rcases Option.map_eq_some'.mp h with ⟨ta, _, hpair⟩
        injection hpair with hg hte
        subst hg; subst hte
        refine ⟨fun _ => ⟨t, hthr, ?_⟩, fun hg => by simp at hg⟩
        rcases Bool.or_eq_true_iff.mp hpress with h1 | h2
        · exact Or.inl h1
        · exact Or.inr h2
      · next hthr =>
        exact ih (by omega) h
    · cases h
      exact ⟨fun hg => by simp at hg, fun _ => hts⟩

/-- The btn1 branch only produces the two btn1 gestures, and only at a time
at which line 1 reads released. -/
theorem btn1Loop_release {tr : Trace} :
    ∀ {fuel t start te : Nat} {g : Gesture},
      btn1Loop tr fuel t start = some (g, te) →
      (g = Gesture.btn1_hold_btn2_tap ∨ g = Gesture.btn1_short) ∧ tr.b1 te = false := by
  intro fuel
  induction fuel with
  | zero => intro t start te g h; exact absurd h (by simp [btn1Loop])
  | succ n ih =>
    intro t start te g h
    rw [btn1Loop] at h
    split at h
    · split at h
      · rcases Option.bind_eq_some.mp h with ⟨t1, hw1, h2⟩
        rcases Option.map_eq_some'.mp h2 with ⟨t2, hw2, hpair⟩
        injection hpair with hg hte
        subst hg; subst hte
        exact ⟨Or.inl rfl, waitRelease_released hw2⟩
      · split at h
        · rcases Option.map_eq_some'.mp h with ⟨ta, hwa, hpair⟩
          injection hpair with hg hte
          subst hg; subst hte
          exact ⟨Or.inr rfl, waitRelease_released hwa⟩
        · exact ih h
    · rcases Option.map_eq_some'.mp h with ⟨ta, hwa, hpair⟩
      injection hpair with hg hte
      subst hg; subst hte
      exact ⟨Or.inr rfl, waitRelease_released hwa⟩

/-- The btn2 branch only produces the two btn2 gestures, and only at a time
at which line 2 reads released. -/
theorem btn2Loop_release {tr : Trace} :
    ∀ {fuel t start te : Nat} {g : Gesture},
      btn2Loop tr fuel t start = some (g, te) →
      (g = Gesture.btn2_hold_btn1_tap ∨ g = Gesture.btn2_short) ∧ tr.b2 te = false := by
  intro fuel
  induction fuel with
  | zero => intro t start te g h; exact absurd h (by simp [btn2Loop])
  | succ n ih =>
    intro t start te g h
    rw [btn2Loop] at h
    split at h
    · split at h
      · rcases Option.bind_eq_some.mp h with ⟨t1, hw1, h2⟩
        rcases Option.map_eq_some'.mp h2 with ⟨t2, hw2, hpair⟩
        injection hpair with hg hte
        subst hg; subst hte
        exact ⟨Or.inl rfl, waitRelease_released hw2⟩
      · split at h
        · rcases Option.map_eq_some'.mp h with ⟨ta, hwa, hpair⟩
          injection hpair with hg hte
          subst hg; subst hte
          exact ⟨Or.inr rfl, waitRelease_released hwa⟩
        · exact ih h
    · rcases Option.map_eq_some'.mp h with ⟨ta, hwa, hpair⟩
      injection hpair with hg hte
      subst hg; subst hte
      exact ⟨Or.inr rfl, waitRelease_released hwa⟩

/-- C1, counterexample to the claim as stated: on cexTrace1 both lines are
pressed at first detection, line 2 is already released at 150 ms (well
before the 800 ms hold threshold), and yet get_input returns both_long at
2010 ms instead of both_short, because the hold loop of the both branch
keeps spinning while either line is still pressed. -/
theorem C1_counterexample :
    cexTrace1.b1 0 = true ∧ cexTrace1.b2 0 = true ∧
    cexTrace1.b2 150 = false ∧ 150 < long_press_ms ∧
    get_input cexTrace1 300 0 = some (some Gesture.both_long, 2010) := by decide

/-- C1, amended: when both lines are pressed at first detection, both_long
is returned only if at least one of the two lines (not necessarily both) is
still pressed at a sample more than 800 ms past the post-debounce timer
start, and both_short is returned only if both lines sample released at
most one 10 ms sleep increment past the threshold; either gesture is
reported at a time at which both lines read released. -/
theorem C1_both_hold_timing (tr : Trace) (fuel t : Nat) (g : Gesture) (te : Nat)
    (h1 : tr.b1 t = true) (h2 : tr.b2 t = true)
    (hret : get_input tr fuel t = some (some g, te)) :
    (g = Gesture.both_long →
      tr.b1 te = false ∧ tr.b2 te = false ∧
      ∃ tc, long_press_ms < tc - (t + debounce_ms) ∧ (tr.b1 tc = true ∨ tr.b2 tc = true)) ∧
    (g = Gesture.both_short →
      tr.b1 te = false ∧ tr.b2 te = false ∧
      te - (t + debounce_ms) ≤ long_press_ms + 10) := by
  have hcl : get_input tr fuel t
      = (bothLoop tr fuel (t + debounce_ms) (t + debounce_ms)).map fun r => (some r.1, r.2) := by
    simp [get_input, h1, h2]
  rw [hcl] at hret
  rcases Option.map_eq_some'.mp hret with ⟨⟨ga, ta⟩, hb, hpair⟩
  simp only [Prod.mk.injEq, Option.some.injEq] at hpair
  obtain ⟨rfl, rfl⟩ := hpair
  obtain ⟨_, hb1, hb2⟩ := bothLoop_release hb
  obtain ⟨hlong, hshort⟩ := bothLoop_timing (by omega) hb
  exact ⟨fun hg => ⟨hb1, hb2, hlong hg⟩, fun hg => ⟨hb1, hb2, hshort hg⟩⟩

/-- C1 witness: on witTrace1 (both lines released just after 100 ms) the
amended theorem applies with gesture both_short returned at 110 ms. -/
theorem C1_both_hold_timing_witness :
    witTrace1.b1 110 = false ∧ witTrace1.b2 110 = false ∧
    110 - (0 + debounce_ms) ≤ long_press_ms + 10 :=
  (C1_both_hold_timing witTrace1 20 0 Gesture.both_short 110
    (by decide) (by decide) (by decide)).2 rfl

/-- C3, counterexample to the claim as stated: on cexTrace3 line 1 is
pressed at the first sample but both lines read released at the
post-debounce re-sample time, so under the claim the transition would be
rejected as spurious; the decoder nevertheless classifies into the
btn1 branch from the pre-debounce sample and returns btn1_short at 50 ms. -/
theorem C3_counterexample :
    cexTrace3.b1 0 = true ∧
    cexTrace3.b1 (0 + debounce_ms) = false ∧ cexTrace3.b2 (0 + debounce_ms) = false ∧
    get_input cexTrace3 10 0 = some (some Gesture.btn1_short, 50) := by decide

/-- C3, amended: when some line samples pressed, the decoder sleeps the
50 ms debounce interval, but the classification into the both branch versus
the single-button branches is decided by the two samples taken before the
debounce sleep; the loops of the chosen branch then sample only from
t + debounce_ms onward.  A line that is released during the debounce
interval is not rejected: its branch still runs, and with the partner line
untouched it returns the plain tap gesture at the post-debounce sample. -/
theorem C3_debounce_classification (tr : Trace) (fuel t : Nat) :
    (tr.b1 t = true → tr.b2 t = true →
      get_input tr fuel t
        = (bothLoop tr fuel (t + debounce_ms) (t + debounce_ms)).map fun r =>
            (some r.1, r.2)) ∧
    (tr.b1 t = true → tr.b2 t = false → tr.b1 (t + debounce_ms) = false →
      get_input tr (fuel + 1 + 1) t = some (some Gesture.btn1_short, t + debounce_ms)) ∧
    (tr.b1 t = false → tr.b2 t = true → tr.b2 (t + debounce_ms) = false →
      get_input tr (fuel + 1 + 1) t = some (some Gesture.btn2_short, t + debounce_ms)) ∧
    (tr.b1 t = false → tr.b2 t = false → get_input tr fuel t = some (none, t)) := by
  refine ⟨fun h1 h2 => ?_, fun h1 h2 h3 => ?_, fun h1 h2 h3 => ?_, fun h1 h2 => ?_⟩
  · simp [get_input, h1, h2]
  · simp [get_input, h1, h2, btn1Loop, h3, waitRelease]
  · simp [get_input, h1, h2, btn2Loop, h3, waitRelease]
  · simp [get_input, h1, h2]

/-- C3 witness: the amended theorem applied to cexTrace3, whose line 1
press disappears during the debounce interval, yields btn1_short at 50 ms. -/
theorem C3_debounce_classification_witness :
    get_input cexTrace3 (8 + 1 + 1) 0 = some (some Gesture.btn1_short, 0 + debounce_ms) :=
  (C3_debounce_classification cexTrace3 8 0).2.1 (by decide) (by decide) (by decide)

/-- C4, counterexample to the claim as stated: on cexTrace4 the decoder
returns btn1_short at 50 ms while line 2 is physically pressed at that very
moment, and a second call returns btn2_short at 200 ms although line 2
stayed pressed throughout, so two consecutive gestures are reported with no
intervening state in which both buttons are released. -/
theorem C4_counterexample :
    get_input cexTrace4 10 0 = some (some Gesture.btn1_short, 50) ∧
    cexTrace4.b2 50 = true ∧
    get_input cexTrace4 30 50 = some (some Gesture.btn2_short, 200) ∧
    (∀ t < 200, 50 ≤ t → cexTrace4.b2 t = true) := by decide

/-- C4, amended: every gesture is reported only at a sample time at which
the lines of its own branch read released: both lines for both_long and
both_short, line 1 for btn1_hold_btn2_tap and btn1_short, line 2 for
btn2_hold_btn1_tap and btn2_short.  The partner line of a single-button
branch is not re-checked before returning, so full release of all buttons
between consecutive gestures is not guaranteed. -/
theorem C4_release_before_report (tr : Trace) (fuel t : Nat) (g : Gesture) (te : Nat)
    (h : get_input tr fuel t = some (some g, te)) :
    ((g = Gesture.both_long ∨ g = Gesture.both_short) →
      tr.b1 te = false ∧ tr.b2 te = false) ∧
    ((g = Gesture.btn1_hold_btn2_tap ∨ g = Gesture.btn1_short) → tr.b1 te = false) ∧
    ((g = Gesture.btn2_hold_btn1_tap ∨ g = Gesture.btn2_short) → tr.b2 te = false) := by
  have hmap : ∀ {lp : Option (Gesture × Nat)},
      lp.map (fun r => (some r.1, r.2)) = some (some g, te) → lp = some (g, te) := by
    intro lp hl
    rcases Option.map_eq_some'.mp hl with ⟨⟨ga, ta⟩, hb, hpair⟩
    simp only [Prod.mk.injEq, Option.some.injEq] at hpair
    obtain ⟨rfl, rfl⟩ := hpair
    exact hb
  rw [get_input] at h
  by_cases h1 : tr.b1 t = true <;> by_cases h2 : tr.b2 t = true
  · simp only [h1, h2] at h
    obtain ⟨hg, hb1, hb2⟩ := bothLoop_release (hmap (by simpa using h))
    refine ⟨fun _ => ⟨hb1, hb2⟩, fun hc => ?_, fun hc => ?_⟩ <;>
      rcases hg with rfl | rfl <;> rcases hc with hc | hc <;> simp at hc
  · simp only [h1, eq_false_of_ne_true h2] at h
    obtain ⟨hg, hb1⟩ := btn1Loop_release (hmap (by simpa using h))
    refine ⟨fun hc => ?_, fun _ => hb1, fun hc => ?_⟩ <;>
      rcases hg with rfl | rfl <;> rcases hc with hc | hc <;> simp at hc
  · simp only [eq_false_of_ne_true h1, h2] at h
    obtain ⟨hg, hb2⟩ := btn2Loop_release (hmap (by simpa using h))
    refine ⟨fun hc => ?_, fun hc => ?_, fun _ => hb2⟩ <;>
      rcases hg with rfl | rfl <;> rcases hc with hc | hc <;> simp at hc
  · simp only [eq_false_of_ne_true h1, eq_false_of_ne_true h2] at h
    simp at h

/-- C4 witness: applied to witTrace1, where both_short is returned at
110 ms, both lines indeed read released at 110 ms. -/
theorem C4_release_before_report_witness :
    witTrace1.b1 110 = false ∧ witTrace1.b2 110 = false :=
  (C4_release_before_report witTrace1 20 0 Gesture.both_short 110 (by decide)).1
    (Or.inr rfl)

/-- C2, counterexample to the claim as stated: with the flag set on entry
and a filepath whose extension is not .py, execute_file returns through the
path-extension rejection branch with the flag still set, because that
branch returns before ProcessControl.clear_exit() ever runs. -/
theorem C2_counterexample :
    (SubprocessManager.execute_file progTxtName ExecOutcome.ok true false).lines
      = [errHeader, notPyLine] ∧
    (SubprocessManager.execute_file progTxtName ExecOutcome.ok true false).should_exit
      = true := by decide

/-- C2, amended: on every branch that passes the extension check (normal
completion, interruption and execution error alike) execute_file returns
with the ProcessControl flag cleared and running reset, whatever the flag
state on entry; the path-extension rejection branch alone returns with both
flags untouched. -/
theorem C2_exit_flag_cleared (filepath : Str) (outcome : ExecOutcome) (e r : Bool) :
    (pyEndsWith filepath dotPy = true →
      (SubprocessManager.execute_file filepath outcome e r).should_exit = false ∧
      (SubprocessManager.execute_file filepath outcome e r).running = false) ∧
    (pyEndsWith filepath dotPy = false →
      SubprocessManager.execute_file filepath outcome e r
        = { lines := [errHeader, notPyLine], should_exit := e, running := r }) := by
  constructor
  · intro hpy
    cases outcome <;> simp [SubprocessManager.execute_file, hpy]
  · intro hpy
    simp [SubprocessManager.execute_file, hpy]

/-- C2 witness: a .py filepath with the flag set on entry comes back with
both flags cleared. -/
theorem C2_exit_flag_cleared_witness :
    (SubprocessManager.execute_file aPyName ExecOutcome.ok true true).should_exit = false ∧
    (SubprocessManager.execute_file aPyName ExecOutcome.ok true true).running = false :=
  (C2_exit_flag_cleared aPyName ExecOutcome.ok true true).1 (by decide)

/-- C7, counterexample to the claim as stated: a twenty-character failure
message is returned whole as the second result line, which is longer than
the sixteen-character display width, because execute_file splits the
message at forty characters, not at the display width. -/
theorem C7_counterexample :
    (SubprocessManager.execute_file aPyName (ExecOutcome.error cexMsg7) false false).lines
      = [execErrLine, cexMsg7, []] ∧
    cexMsg7.length = 20 ∧ Display.max_chars < cexMsg7.length := by decide

/-- C7, amended: on an execution failure other than an interruption,
execute_file performs the same cleanup as the other branches (flag cleared,
running reset) and returns an error result carrying the failure message
split at forty characters into at most two chunks of at most forty
characters each; the sixteen-character truncation only happens later when
Display.draw_lines renders each line. -/
theorem C7_error_result (filepath msg : Str) (e r : Bool)
    (hpy : pyEndsWith filepath dotPy = true) :
    SubprocessManager.execute_file filepath (ExecOutcome.error msg) e r
      = { lines := [execErrLine, msg.take 40,
                    if 40 < msg.length then (msg.drop 40).take 40 else []],
          should_exit := false, running := false } ∧
    (msg.take 40).length ≤ 40 ∧
    (if 40 < msg.length then (msg.drop 40).take 40 else ([] : Str)).length ≤ 40 := by
  refine ⟨by simp [SubprocessManager.execute_file, hpy], ?_, ?_⟩
  · rw [List.length_take]
    exact Nat.min_le_left _ _
  · split
    · rw [List.length_take]
      exact Nat.min_le_left _ _
    · simp

/-- C7 witness: the amended theorem applied to the twenty-character
message. -/
theorem C7_error_result_witness :
    SubprocessManager.execute_file aPyName (ExecOutcome.error cexMsg7) false false
      = { lines := [execErrLine, cexMsg7.take 40,
                    if 40 < cexMsg7.length then (cexMsg7.drop 40).take 40 else []],
          should_exit := false, running := false } :=
  (C7_error_result aPyName cexMsg7 false false (by decide)).1

/-- Advancing the selection never changes the item list. -/
theorem next_item_items (b : FileBrowser) : b.next_item.items = b.items := by
  unfold FileBrowser.next_item
  split <;> rfl

/-- Advancing the selection on a nonempty list increments it modulo the
list length. -/
theorem next_item_selected (b : FileBrowser) (hne : b.items ≠ []) :
    b.next_item.selected_index = (b.selected_index + 1) % b.items.length := by
  unfold FileBrowser.next_item
  rw [if_neg hne]

/-- Iterating next_item adds the iteration count modulo the length. -/
theorem next_item_iterate_selected :
    ∀ (k : Nat) (b : FileBrowser), b.items ≠ [] → b.selected_index < b.items.length →
      (FileBrowser.next_item^[k] b).selected_index
        = (b.selected_index + k) % b.items.length := by
  intro k
  induction k with
  | zero =>
    intro b hne hlt
    simpa using (Nat.mod_eq_of_lt hlt).symm
  | succ n ih =>
    intro b hne hlt
    have hpos : 0 < b.items.length := List.length_pos.mpr hne
    have hlen : b.next_item.items = b.items := next_item_items b
    have hne2 : b.next_item.items ≠ [] := by rw [hlen]; exact hne
    have hsel : b.next_item.selected_index = (b.selected_index + 1) % b.items.length :=
      next_item_selected b hne
    have hlt2 : b.next_item.selected_index < b.next_item.items.length := by
      rw [hsel, hlen]
      exact Nat.mod_lt _ hpos
    rw [Function.iterate_succ_apply, ih b.next_item hne2 hlt2, hlen, hsel, Nat.mod_add_mod]
    congr 1
    omega

/-- After any advance on a nonempty list, the scroll window contains the
selection. -/
theorem next_item_scroll_invariant (b : FileBrowser) (hne : b.items ≠ []) :
    b.next_item.scroll_offset ≤ b.next_item.selected_index ∧
    b.next_item.selected_index < b.next_item.scroll_offset + Display.max_lines := by
  have hD : Display.max_lines = 6 := rfl
  unfold FileBrowser.next_item
  rw [if_neg hne]
  simp only []
  split
  · omega
  · split <;> omega

/-- Iterating MenuSystem.next_item adds the iteration count modulo the
fixed menu length. -/
theorem menu_next_item_iterate :
    ∀ (k : Nat) (m : MenuSystem), m.selected_index < menu_items.length →
      (MenuSystem.next_item^[k] m).selected_index
        = (m.selected_index + k) % menu_items.length := by
  intro k
  induction k with
  | zero =>
    intro m hlt
    simpa using (Nat.mod_eq_of_lt hlt).symm
  | succ n ih =>
    intro m hlt
    have hpos : 0 < menu_items.length := by decide
    have hlt2 : m.next_item.selected_index < menu_items.length := Nat.mod_lt _ hpos
    rw [Function.iterate_succ_apply, ih m.next_item hlt2]
    show ((m.selected_index + 1) % menu_items.length + n) % menu_items.length = _
    rw [Nat.mod_add_mod]
    congr 1
    omega

/-- C5: advancing the selection N times on an N-item list returns it to its
starting index, both for the file browser and for the four-item menu, and
after every single advance on a nonempty browser list the scroll invariant
scroll_offset ≤ selected_index < scroll_offset + max_lines holds (the menu
renders with scroll offset fixed at zero, where the invariant is immediate
from selected_index < 4). -/
theorem C5_advance_cyclic_and_visible :
    (∀ b : FileBrowser, b.items ≠ [] → b.selected_index < b.items.length →
      (FileBrowser.next_item^[b.items.length] b).selected_index = b.selected_index) ∧
    (∀ b : FileBrowser, b.items ≠ [] →
      b.next_item.scroll_offset ≤ b.next_item.selected_index ∧
      b.next_item.selected_index < b.next_item.scroll_offset + Display.max_lines) ∧
    (∀ m : MenuSystem, m.selected_index < menu_items.length →
      (MenuSystem.next_item^[menu_items.length] m).selected_index = m.selected_index) := by
  refine ⟨fun b hne hlt => ?_, fun b hne => next_item_scroll_invariant b hne,
    fun m hlt => ?_⟩
  · rw [next_item_iterate_selected _ b hne hlt, Nat.add_mod_right]
    exact Nat.mod_eq_of_lt hlt
  · rw [menu_next_item_iterate _ m hlt, Nat.add_mod_right]
    exact Nat.mod_eq_of_lt hlt

/-- C5 witness: a three-item browser starting at index 1 returns to index 1
after three advances, and one advance keeps the selection inside the
scroll window; the menu returns to index 2 after four advances. -/
theorem C5_advance_cyclic_and_visible_witness :
    ((FileBrowser.next_item^[witBrowser5.items.length] witBrowser5).selected_index
      = witBrowser5.selected_index) ∧
    (witBrowser5.next_item.scroll_offset ≤ witBrowser5.next_item.selected_index ∧
      witBrowser5.next_item.selected_index
        < witBrowser5.next_item.scroll_offset + Display.max_lines) ∧
    ((MenuSystem.next_item^[menu_items.length] ⟨2⟩).selected_index
      = (⟨2⟩ : MenuSystem).selected_index) :=
  ⟨C5_advance_cyclic_and_visible.1 witBrowser5 (by decide) (by decide),
   C5_advance_cyclic_and_visible.2.1 witBrowser5 (by decide),
   C5_advance_cyclic_and_visible.2.2 ⟨2⟩ (by decide)⟩

/-- Membership in an insertion is membership in the parts. -/
theorem mem_insertSorted {x a : Str} :
    ∀ {l : List Str}, a ∈ insertSorted x l ↔ a = x ∨ a ∈ l := by
  intro l
  induction l with
  | nil => simp [insertSorted]
  | cons y ys ih =>
    rw [insertSorted]
    split
    · simp only [List.mem_cons, ih, List.mem_cons]
      tauto
    · simp [List.mem_cons]

/-- Sorting keeps exactly the same names. -/
theorem mem_pySorted {a : Str} : ∀ {l : List Str}, a ∈ pySorted l ↔ a ∈ l := by
  intro l
  induction l with
  | nil => simp [pySorted]
  | cons y ys ih =>
    show a ∈ insertSorted y (pySorted ys) ↔ _
    rw [mem_insertSorted, ih]
    simp

/-- Every scanned item is named by a listed entry other than main.py and is
a dir or file item whose path is the full path of its entry. -/
theorem mem_scanEntries {fs : Listing} {cp : Str} {entries : List Str} {i : Item}
    (hi : i ∈ scanEntries fs cp entries) :
    i.name ∈ entries ∧ i.name ≠ mainPyName ∧
      (i.type = ItemType.dir ∨ i.type = ItemType.file) ∧
      i.path = fullPath cp i.name := by
  rcases List.mem_filterMap.mp hi with ⟨entry, hmem, hf⟩
  rw [mem_pySorted] at hmem
  by_cases he : entry = mainPyName
  · rw [if_pos he] at hf
    cases hf
  · rw [if_neg he] at hf
    cases hfp : fs (fullPath cp entry) <;> rw [hfp] at hf <;> cases hf <;> simp_all

/-- Refreshing after a successful listing yields the scanned items with the
parent entry in front away from the root. -/
theorem refresh_items_ok {fs : Listing} {b : FileBrowser} {entries : List Str}
    (hfs : fs b.current_path = Except.ok entries) :
    refresh_items fs b =
      { b with
        items :=
          if b.current_path ≠ rootPath then
            { name := dotDotName, type := ItemType.parent,
              path := get_parent_path b.current_path } :: scanEntries fs b.current_path entries
          else scanEntries fs b.current_path entries,
        selected_index := 0, scroll_offset := 0 } := by
  unfold refresh_items
  rw [hfs]

/-- Refreshing after a listing failure yields the single synthetic error
item. -/
theorem refresh_items_err {fs : Listing} {b : FileBrowser} {e : Str}
    (hfs : fs b.current_path = Except.error e) :
    refresh_items fs b =
      { b with
        items := [{ name := errorLabel ++ e, type := ItemType.error, path := [] }],
        selected_index := 0, scroll_offset := 0 } := by
  unfold refresh_items
  rw [hfs]

/-- Refreshing never changes the current path. -/
theorem refresh_items_path (fs : Listing) (b : FileBrowser) :
    (refresh_items fs b).current_path = b.current_path := by
  unfold refresh_items
  rfl

/-- C6, counterexample to the claim as stated: at the non-root path /tools
with a failing listing, refresh_items produces only the synthetic error
item and no parent entry, so the parent entry is not present although
current_path is not the root. -/
theorem C6_counterexample :
    cexBrowser6.current_path ≠ rootPath ∧
    (∀ i ∈ (refresh_items cexFs6 cexBrowser6).items, i.type ≠ ItemType.parent) := by decide

/-- C6, amended: after refresh_items the items list contains a parent entry
precisely when current_path is not the root AND the listing succeeded (the
listing-error case yields only the synthetic error item, parentless even
away from the root); in every case no item of the list is named main.py. -/
theorem C6_refresh_parent_and_filter (fs : Listing) (b : FileBrowser) :
    ((∃ i ∈ (refresh_items fs b).items, i.type = ItemType.parent) ↔
      (b.current_path ≠ rootPath ∧ ∃ es, fs b.current_path = Except.ok es)) ∧
    (∀ i ∈ (refresh_items fs b).items, i.name ≠ mainPyName) := by
  cases hfs : fs b.current_path with
  | ok entries =>
    rw [refresh_items_ok hfs]
    by_cases hroot : b.current_path = rootPath
    · rw [if_neg (fun hcon => hcon hroot)]
      refine ⟨⟨fun hex => ?_, fun hrhs => absurd hroot hrhs.1⟩, fun i hi => ?_⟩
      · rcases hex with ⟨i, hi, hty⟩
        rcases (mem_scanEntries hi).2.2.1 with h | h <;> rw [hty] at h <;> cases h
      · exact (mem_scanEntries hi).2.1
    · rw [if_pos hroot]
      refine ⟨⟨fun _ => ⟨hroot, entries, rfl⟩, fun _ => ?_⟩, fun i hi => ?_⟩
      · exact ⟨{ name := dotDotName, type := ItemType.parent,
                 path := get_parent_path b.current_path }, List.mem_cons_self _ _, rfl⟩
      · rcases List.mem_cons.mp hi with rfl | hi2
        · exact fun h => absurd h (show ¬ (dotDotName = mainPyName) by decide)
        · exact (mem_scanEntries hi2).2.1
  | error e =>
    rw [refresh_items_err hfs]
    refine ⟨⟨fun hex => ?_, fun hrhs => ?_⟩, fun i hi => ?_⟩
    · rcases hex with ⟨i, hi, hty⟩
      simp only [List.mem_singleton] at hi
      rw [hi] at hty
      cases hty
    · rcases hrhs with ⟨_, es, hes⟩
      cases hes
    · simp only [List.mem_singleton] at hi
      rw [hi]
      intro h
      have h3 : 'E' :: (['r', 'r', 'o', 'r', ':', ' '] ++ e) = mainPyName := h
      injection h3 with h4 _
      exact absurd h4 (by decide)

/-- C6 witness: at /tools with a succeeding listing the parent entry is
present. -/
theorem C6_refresh_parent_and_filter_witness :
    ∃ i ∈ (refresh_items witFs cexBrowser6).items, i.type = ItemType.parent :=
  (C6_refresh_parent_and_filter witFs cexBrowser6).1.mpr ⟨by decide, [], rfl⟩

/-- C8: when the selected item is a file entry, enter_selected returns its
path and the browser state comes back entirely unchanged. -/
theorem C8_enter_file_frame (fs : Listing) (b : FileBrowser) (item : Item)
    (hsel : b.get_selected_item = some item) (hty : item.type = ItemType.file) :
    b.enter_selected fs = (some item.path, b) := by
  unfold FileBrowser.enter_selected
  rw [hsel]
  simp [hty]

/-- C8 witness: a one-item browser with the file a.py selected hands back
the path /a.py and the very same browser state. -/
theorem C8_enter_file_frame_witness :
    witBrowser8.enter_selected witFs = (some witItem.path, witBrowser8) :=
  C8_enter_file_frame witFs witBrowser8 witItem (by decide) (by decide)

/-- C9: in file browser mode with the tools directory entry of the root
selected, the select gesture navigates: current_path becomes /tools, the
browser state is exactly the refresh_items result at /tools, and the mode
stays cbin; the subsequent both_short gesture switches back to menu mode
leaving the whole browser state (current_path included) unchanged. -/
theorem C9_enter_tools_then_menu (fs : Listing) (outcome : ExecOutcome) (os : OS)
    (hmode : os.mode = Mode.cbin)
    (_hpath : os.file_browser.current_path = rootPath)
    (hsel : os.file_browser.get_selected_item
      = some { name := toolsName, type := ItemType.dir, path := toolsPath }) :
    ∃ os1, CraneFlyOS.handle_cbin_input fs outcome (some Gesture.btn2_short) os = some os1
      ∧ os1.file_browser = refresh_items fs { os.file_browser with current_path := toolsPath }
      ∧ os1.file_browser.current_path = toolsPath
      ∧ os1.mode = Mode.cbin
      ∧ ∃ os2, CraneFlyOS.handle_cbin_input fs outcome (some Gesture.both_short) os1 = some os2
          ∧ os2.mode = Mode.menu ∧ os2.file_browser = os1.file_browser := by
  have hes : os.file_browser.enter_selected fs
      = (none, refresh_items fs { os.file_browser with current_path := toolsPath }) := by
    unfold FileBrowser.enter_selected
    rw [hsel]
    simp
  refine ⟨{ os with
      file_browser := refresh_items fs { os.file_browser with current_path := toolsPath } },
    ?_, rfl, ?_, hmode, ⟨_, rfl, rfl, rfl⟩⟩
  · show (match (os.file_browser.enter_selected fs).1 with
      | some path => some (CraneFlyOS.execute_file outcome path
          { os with file_browser := (os.file_browser.enter_selected fs).2 })
      | none => some { os with file_browser := (os.file_browser.enter_selected fs).2 })
      = _
    rw [hes]
  · rw [refresh_items_path]

/-- C9 witness: the scenario run on the concrete witness state, whose
browser was refreshed at the root against witFs and whose selection sits on
the tools entry. -/
theorem C9_enter_tools_then_menu_witness :
    ∃ os1, CraneFlyOS.handle_cbin_input witFs ExecOutcome.ok
        (some Gesture.btn2_short) witOS9 = some os1
      ∧ os1.file_browser
          = refresh_items witFs { witOS9.file_browser with current_path := toolsPath }
      ∧ os1.file_browser.current_path = toolsPath
      ∧ os1.mode = Mode.cbin
      ∧ ∃ os2, CraneFlyOS.handle_cbin_input witFs ExecOutcome.ok
            (some Gesture.both_short) os1 = some os2
          ∧ os2.mode = Mode.menu ∧ os2.file_browser = os1.file_browser :=
  C9_enter_tools_then_menu witFs ExecOutcome.ok witOS9 rfl (by decide) (by decide)

/-- Stripping a trailing run of c leaves a list that ends in another
character untouched. -/
theorem pyRstrip_append_singleton (c d : Char) (hd : d ≠ c) :
    ∀ s : Str, pyRstrip c (s ++ [d]) = s ++ [d] := by
  intro s
  induction s with
  | nil => simp [pyRstrip, hd]
  | cons a s2 ih =>
    rw [List.cons_append, pyRstrip]
    simp only [ih]
    rw [if_neg (by simp)]

/-- The join of nonempty separator-free segments ends in a character other
than the separator. -/
theorem pyJoin_decomp (c : Char) :
    ∀ segs : List Str, segs ≠ [] → (∀ s ∈ segs, s ≠ [] ∧ c ∉ s) →
      ∃ u d, pyJoin c segs = u ++ [d] ∧ d ≠ c := by
  intro segs
  induction segs with
  | nil => intro h; exact absurd rfl h
  | cons s rest ih =>
    intro _ hall
    cases rest with
    | nil =>
      obtain ⟨hs, hc⟩ := hall s (by simp)
      refine ⟨s.dropLast, s.getLast hs, ?_, ?_⟩
      · show s = _
        exact (List.dropLast_append_getLast hs).symm
      · intro hdc
        exact hc (hdc ▸ List.getLast_mem hs)
    | cons s2 rest2 =>
      obtain ⟨u, d, hu, hd⟩ := ih (by simp) (fun x hx => hall x (List.mem_cons_of_mem s hx))
      refine ⟨s ++ c :: u, d, ?_, hd⟩
      show s ++ c :: pyJoin c (s2 :: rest2) = _
      rw [hu]
      simp

/-- Splitting after prepending a separator-free piece extends the first
split field. -/
theorem pySplit_append_nosep (c : Char) :
    ∀ s : Str, c ∉ s → ∀ (l h : Str) (u : List Str),
      pySplit c l = h :: u → pySplit c (s ++ l) = (s ++ h) :: u := by
  intro s
  induction s with
  | nil => intro _ l h u hl; simpa using hl
  | cons a s2 ih =>
    intro hc l h u hl
    have hac : a ≠ c := fun e => hc (e ▸ List.mem_cons_self a s2)
    rw [List.cons_append, pySplit, if_neg hac,
      ih (fun hmem => hc (List.mem_cons_of_mem a hmem)) l h u hl]
    rfl

/-- Splitting a separator-free string gives it back whole. -/
theorem pySplit_nosep (c : Char) (s : Str) (hc : c ∉ s) : pySplit c s = [s] := by
  have h := pySplit_append_nosep c s hc [] [] [] (by rw [pySplit])
  simpa using h

/-- Splitting at the separator undoes joining nonempty separator-free
segments with it. -/
theorem pySplit_join (c : Char) :
    ∀ segs : List Str, segs ≠ [] → (∀ s ∈ segs, c ∉ s) →
      pySplit c (pyJoin c segs) = segs := by
  intro segs
  induction segs with
  | nil => intro h; exact absurd rfl h
  | cons s rest ih =>
    intro _ hall
    cases rest with
    | nil => exact pySplit_nosep c s (hall s (by simp))
    | cons s2 rest2 =>
      have hrec : pySplit c (pyJoin c (s2 :: rest2)) = s2 :: rest2 :=
        ih (by simp) (fun x hx => hall x (List.mem_cons_of_mem s hx))
      have hsplit2 : pySplit c (c :: pyJoin c (s2 :: rest2)) = [] :: s2 :: rest2 := by
        rw [pySplit, if_pos rfl, hrec]
      have h := pySplit_append_nosep c s (hall s (by simp)) _ _ _ hsplit2
      show pySplit c (s ++ c :: pyJoin c (s2 :: rest2)) = _
      rw [h]
      simp

/-- C10, counterexample placeholder is not needed: the claim holds.  Main
statement: on every path of the shape /seg1/.../segN with nonempty
slash-free segments, _get_parent_path drops the last segment (giving the
root when only one segment remains), it maps the root to itself, and the
parent entry refresh_items builds at such a path carries exactly that
one-level-up path. -/
theorem C10_parent_path (segs : List Str) (hne : segs ≠ [])
    (hseg : ∀ s ∈ segs, s ≠ [] ∧ '/' ∉ s) :
    (get_parent_path (mkPath segs) = mkPath segs.dropLast ∧
      get_parent_path rootPath = rootPath) ∧
    (∀ (fs : Listing) (b : FileBrowser) (entries : List Str),
      b.current_path = mkPath segs → fs b.current_path = Except.ok entries →
      (refresh_items fs b).items
        = { name := dotDotName, type := ItemType.parent, path := mkPath segs.dropLast }
            :: scanEntries fs b.current_path entries) := by
  obtain ⟨u, d, hud, hdc⟩ := pyJoin_decomp '/' segs hne hseg
  have hjne : pyJoin '/' segs ≠ [] := by rw [hud]; simp
  have hmk : mkPath segs ≠ rootPath := by
    simp only [mkPath, rootPath]
    intro h
    injection h with _ h2
    exact hjne h2
  have hrstrip : pyRstrip '/' (mkPath segs) = mkPath segs := by
    have hshape : mkPath segs = ('/' :: u) ++ [d] := by
      simp [mkPath, hud]
    rw [hshape, pyRstrip_append_singleton '/' d hdc]
  have hsplit : pySplit '/' (mkPath segs) = [] :: segs := by
    show pySplit '/' ('/' :: pyJoin '/' segs) = _
    rw [pySplit, if_pos rfl, pySplit_join '/' segs hne (fun s hs => (hseg s hs).2)]
  have hparent : get_parent_path (mkPath segs) = mkPath segs.dropLast := by
    unfold get_parent_path
    rw [if_neg hmk, hrstrip, hsplit]
    rw [if_neg (by simpa using hne)]
    cases segs with
    | nil => exact absurd rfl hne
    | cons s rest =>
      cases rest with
      | nil => rfl
      | cons s2 rest2 =>
        show (if pyJoin '/' ([] :: (s :: s2 :: rest2).dropLast) = [] then rootPath
          else pyJoin '/' ([] :: (s :: s2 :: rest2).dropLast)) = _
        have hdl : (s :: s2 :: rest2).dropLast = s :: (s2 :: rest2).dropLast := rfl
        rw [hdl]
        show (if '/' :: pyJoin '/' (s :: (s2 :: rest2).dropLast) = [] then rootPath
          else '/' :: pyJoin '/' (s :: (s2 :: rest2).dropLast)) = _
        rw [if_neg (by simp)]
        rfl
  refine ⟨⟨hparent, by decide⟩, fun fs b entries hcp hfs => ?_⟩
  rw [refresh_items_ok hfs, hcp]
  rw [if_pos hmk, hparent]

/-- C10 witness: the parent of /a/b is /a. -/
theorem C10_parent_path_witness :
    get_parent_path (mkPath [['a'], ['b']]) = mkPath ([['a'], ['b']].dropLast) :=
  (C10_parent_path [['a'], ['b']] (by decide) (by decide)).1.1

end CraneFly

